import Mathlib

/-!
Verification of the Chore Champion core logic.

A shallow embedding of the stateful core of `src/App.tsx` (the only source
file of the repository): the chore store, the game-session state machine,
the streak/leveling rules and the keyword-to-emoji lookup.

Modelling conventions:
* Timestamps (`Date.now()`, `new Date().getTime()`) are integers counting
  milliseconds; every operation that reads the clock takes the current time
  as an explicit `now : Int` parameter.
* The React `useState` fields of the `App` component form one record,
  `AppState`; each event handler is a function `... → AppState → AppState`.
* JavaScript numbers holding the non-negative quantities `points`, `xp`,
  `level`, `streak`, `timer` are modelled as `Nat` (the source only ever
  adds non-negative amounts to them).
* `JSON.parse` either returns a value or throws; the load effect is
  modelled with `Except Unit`, an uncaught exception being `.error ()`.
-/

namespace ChoreGame

/-- The three difficulty levels of `Chore.difficulty` (`'easy' | 'medium' | 'hard'`). -/
inductive Difficulty where
  | easy
  | medium
  | hard
deriving DecidableEq, Repr

/-- Per-difficulty configuration (source `DIFFICULTY_SETTINGS`, lines 101–105):
start seconds, reward multiplier and the display colour. -/
structure DifficultySettings where
  time : Nat
  multiplier : Nat
  color : String
deriving DecidableEq, Repr

/-- Source `DIFFICULTY_SETTINGS` object (lines 101–105). -/
def DIFFICULTY_SETTINGS : Difficulty → DifficultySettings
  | .easy => { time := 45, multiplier := 1, color := "#4CAF50" }
  | .medium => { time := 30, multiplier := 2, color := "#FF9800" }
  | .hard => { time := 15, multiplier := 3, color := "#f44336" }

/-- The `Chore` interface (source lines 80–87). `lastCompleted` is an ISO
timestamp string or `null` in the source; its information content is the
instant it denotes, modelled as `Option Int` (milliseconds). -/
structure Chore where
  id : Int
  name : String
  difficulty : Difficulty
  lastCompleted : Option Int
  streak : Nat
  emoji : String
deriving DecidableEq, Repr

/-- The `useState` fields of the `App` component (source lines 90–99),
in declaration order. -/
structure AppState where
  chores : List Chore
  newChoreName : String
  selectedDifficulty : Difficulty
  isPlaying : Bool
  currentChore : Option Chore
  timer : Nat
  points : Nat
  showConfetti : Bool
  level : Nat
  xp : Nat
deriving DecidableEq, Repr

/-- The initial state: the `useState` initialisers of lines 90–99. -/
def initialState : AppState where
  chores := []
  newChoreName := ""
  selectedDifficulty := .medium
  isPlaying := false
  currentChore := none
  timer := 30
  points := 0
  showConfetti := false
  level := 1
  xp := 0

/-- Does the character list `l` start with the character list `p`?
(Helper for JavaScript `String.prototype.includes`.) -/
def listStarts : List Char → List Char → Bool
  | _, [] => true
  | [], _ :: _ => false
  | a :: l, b :: p => a == b && listStarts l p

/-- Does the character list `l` contain `p` as a contiguous run? -/
def listHasSub : List Char → List Char → Bool
  | [], p => p.isEmpty
  | a :: t, p => listStarts (a :: t) p || listHasSub t p

/-- JavaScript `s.includes(pat)`: `pat` occurs as a contiguous substring of
`s` (always true for the empty pattern). -/
def strIncludes (s pat : String) : Bool :=
  listHasSub s.data pat.data

/-- JavaScript `s.toLowerCase()`: lowercase every character (`Char.toLower`,
which covers the ASCII letters appearing in the emoji keywords). -/
def strToLower (s : String) : String :=
  ⟨s.data.map Char.toLower⟩

/-- JavaScript `s.trim()`: drop whitespace from both ends. -/
def strTrim (s : String) : String :=
  ⟨((s.data.dropWhile Char.isWhitespace).reverse.dropWhile
      Char.isWhitespace).reverse⟩

/-- Source `CHORE_EMOJI_MAPPING` (lines 108–184) as an ordered association
list. Its keys are all non-numeric strings, so JavaScript `Object.keys`
returns them in this declaration order. -/
def CHORE_EMOJI_MAPPING : List (String × String) :=
  [ ("clean", "🧹"), ("vacuum", "🧹"), ("dust", "🧹"), ("sweep", "🧹"),
    ("mop", "🧹"), ("wash", "🧽"),
    ("laundry", "👕"), ("clothes", "👕"), ("fold", "👕"), ("iron", "👔"),
    ("dishes", "🍽️"), ("dish", "🍽️"), ("kitchen", "🍳"), ("cook", "👨‍🍳"),
    ("cooking", "👨‍🍳"), ("meal", "🍳"),
    ("bathroom", "🚽"), ("toilet", "🚽"), ("shower", "🚿"),
    ("bed", "🛏️"), ("bedroom", "🛏️"), ("sheets", "🛏️"),
    ("garden", "🌱"), ("plant", "🌱"), ("lawn", "🌿"), ("yard", "🏡"),
    ("outdoor", "🏡"),
    ("trash", "🗑️"), ("garbage", "🗑️"), ("recycling", "♻️"),
    ("dog", "🐕"), ("cat", "🐱"), ("pet", "🐾"), ("feed", "🐾"),
    ("walk", "🐕"),
    ("organize", "📦"), ("sort", "📦"), ("declutter", "📦"), ("tidy", "🗄️"),
    ("fix", "🔧"), ("repair", "🔧"), ("maintain", "🔧"),
    ("homework", "📚"), ("study", "📚"), ("work", "💼"), ("desk", "🖥️"),
    ("exercise", "🏃"), ("workout", "💪"), ("gym", "🏋️"),
    ("default", "✨") ]

/-- Property access `CHORE_EMOJI_MAPPING[k]`: the glyph bound to key `k`
(the first binding, though in the source object every key occurs once). -/
def emojiFor (k : String) : String :=
  (((CHORE_EMOJI_MAPPING.find? (fun kv => kv.1 == k)).map Prod.snd).getD "")

/-- Source `findEmojiForChore` (lines 186–197): lowercase the name, scan
`Object.keys(CHORE_EMOJI_MAPPING)` for the first keyword included in the
lowercased name, and index the mapping with it; fall back to
`CHORE_EMOJI_MAPPING.default`. -/
def findEmojiForChore (choreName : String) : String :=
  let lowercaseName := strToLower choreName
  match (CHORE_EMOJI_MAPPING.map Prod.fst).find?
      (fun keyword => strIncludes lowercaseName keyword) with
  | some matchingKeyword => emojiFor matchingKeyword
  | none => emojiFor "default"

/-- Source `handleAddChore` (lines 230–243): early-return when the trimmed
name is empty (falsy), otherwise append a fresh chore whose `id` is
`Date.now()` (the `now` parameter) and clear the input field. -/
def handleAddChore (now : Int) (s : AppState) : AppState :=
  if strTrim s.newChoreName = "" then s
  else
    let newChore : Chore :=
      { id := now
        name := s.newChoreName
        difficulty := s.selectedDifficulty
        lastCompleted := none
        streak := 0
        emoji := findEmojiForChore s.newChoreName }
    { s with chores := s.chores ++ [newChore], newChoreName := "" }

/-- Source `handleRemoveChore` (lines 245–248). -/
def handleRemoveChore (id : Int) (s : AppState) : AppState :=
  { s with chores := s.chores.filter (fun chore => chore.id ≠ id) }

/-- Source `startGame` (lines 250–257). -/
def startGame (chore : Chore) (s : AppState) : AppState :=
  { s with
    isPlaying := true
    currentChore := some chore
    timer := (DIFFICULTY_SETTINGS chore.difficulty).time
    points := 0 }

/-- Milliseconds per day, `1000 * 60 * 60 * 24` (source line 295). -/
def msPerDay : Int := 1000 * 60 * 60 * 24

/-- Source `updateStreak` (lines 290–299): never completed means streak 1;
otherwise `diffDays = Math.floor((today - lastCompleted) / msPerDay)` and
the streak increments when `diffDays <= 1`, else resets to 1.
`Math.floor` of the real quotient of two integers is floor division,
`Int.fdiv`. -/
def updateStreak (now : Int) (chore : Chore) : Nat :=
  match chore.lastCompleted with
  | none => 1
  | some lastCompleted =>
    let diffDays : Int := (now - lastCompleted).fdiv msPerDay
    if diffDays ≤ 1 then chore.streak + 1 else 1

/-- Source `endGame` (lines 259–288): with an active chore, add
`points * multiplier` to `xp`, recompute the level and raise it (with
confetti) only when it increased, stamp the active chore's `lastCompleted`
with the current time and recompute its streak; in every case leave the
playing state. Both the timer-expiry path (line 225) and the `End Game`
button (line 423) invoke this same function. -/
def endGame (now : Int) (s : AppState) : AppState :=
  match s.currentChore with
  | some currentChore =>
    let finalPoints := s.points * (DIFFICULTY_SETTINGS currentChore.difficulty).multiplier
    let newXp := s.xp + finalPoints
    let newLevel := newXp / 1000 + 1
    let s1 := { s with xp := newXp }
    let s2 :=
      if newLevel > s.level then { s1 with level := newLevel, showConfetti := true }
      else s1
    let updatedChore : Chore :=
      { currentChore with
        lastCompleted := some now
        streak := updateStreak now currentChore }
    { s2 with
      chores := s2.chores.map
        (fun c => if c.id = currentChore.id then updatedChore else c)
      isPlaying := false
      currentChore := none }
  | none => { s with isPlaying := false, currentChore := none }

/-- The `+1 Point` control (source lines 420–422). Its handler is
`setPoints(points + 1)`, and the button is mounted only in the
`isPlaying` branch of the render (line 327: `!isPlaying ? … : …`), so
dispatching the event while not playing reaches no handler and leaves the
state unchanged. -/
def scorePoint (s : AppState) : AppState :=
  if s.isPlaying then { s with points := s.points + 1 } else s

/-- The shape destructured from the persisted JSON value
(`const { chores, level, xp } = JSON.parse(savedData)`, source line 203). -/
structure SavedData where
  chores : List Chore
  level : Nat
  xp : Nat
deriving DecidableEq, Repr

/-- The load effect (source lines 199–208). Its input is what
`localStorage.getItem("choreGame")` followed by `JSON.parse` produces:
`none` when no item is stored; `some (.ok d)` when the stored string parses
to data `d`; `some (.error ())` when the stored string is corrupt and
`JSON.parse` throws. The effect body has no `try`/`catch`, so the
exception propagates out of the effect (result `.error ()`); otherwise the
parsed fields replace the state's `chores`, `level` and `xp`. -/
def loadEffect (saved : Option (Except Unit SavedData)) (s : AppState) :
    Except Unit AppState :=
  match saved with
  | none => .ok s
  | some (.ok d) => .ok { s with chores := d.chores, level := d.level, xp := d.xp }
  | some (.error e) => .error e

/-- One user-level `addChore` interaction: type `name` into the input
(`setNewChoreName`), pick `difficulty` in the selector
(`setSelectedDifficulty`), and click `Add Chore` at instant `now`
(source lines 379–394 wire these controls to `handleAddChore`). -/
structure AddOp where
  now : Int
  name : String
  difficulty : Difficulty
deriving DecidableEq, Repr

/-- Apply one `AddOp` to the state. -/
def addChoreOp (op : AddOp) (s : AppState) : AppState :=
  handleAddChore op.now
    { s with newChoreName := op.name, selectedDifficulty := op.difficulty }

/-- Apply a sequence of `addChore` interactions in order. -/
def runAdds (ops : List AddOp) (s : AppState) : AppState :=
  ops.foldl (fun st op => addChoreOp op st) s

/-- The emoji-resolution rule as the specification words it: lowercase the
chore name and return the glyph of the first pair of the ordered mapping
whose keyword occurs as a substring, or the default glyph when none does.
(To be compared with the source's `findEmojiForChore`, which searches the
key list and then indexes the object.) -/
def findEmojiSpec (choreName : String) : String :=
  match CHORE_EMOJI_MAPPING.find?
      (fun kv => strIncludes (strToLower choreName) kv.1) with
  | some kv => kv.2
  | none => emojiFor "default"

/-- A hard chore that has never been completed (concrete test fixture). -/
def choreHard : Chore :=
  { id := 5, name := "dishes", difficulty := .hard, lastCompleted := none,
    streak := 0, emoji := "🍽️" }

/-- A running hard session with 5 points and 990 xp (one reward away from
levelling up). -/
def playingState : AppState :=
  { initialState with chores := [choreHard], currentChore := some choreHard,
                      isPlaying := true, points := 5, xp := 990 }

/-- A running hard session with 5 points on a fresh profile (xp 0). -/
def freshHardSession : AppState :=
  { initialState with chores := [choreHard], currentChore := some choreHard,
                      isPlaying := true, points := 5 }

/-- A chore last completed at instant 0 with a streak of 3. -/
def choreDone : Chore := { choreHard with lastCompleted := some 0, streak := 3 }

/-- The initial state with a non-blank name typed into the add-chore input. -/
def addState : AppState := { initialState with newChoreName := "dog walk" }

/-- The chore `choreHard` as `endGame` at instant 99 rewrites it. -/
def updatedHard : Chore := { choreHard with lastCompleted := some 99, streak := 1 }

/-- A running hard session in which no point was ever scored. -/
def zeroPointSession : AppState :=
  { initialState with chores := [choreHard], currentChore := some choreHard,
                      isPlaying := true }

/-! Helper lemmas shared by the claim theorems. -/

/-- Looking a key up in an association list with distinct keys returns the
pair the key belongs to. -/
lemma find?_key_of_nodup (L : List (String × String))
    (hnd : (L.map Prod.fst).Nodup) (kv : String × String) (hmem : kv ∈ L) :
    L.find? (fun x => x.1 == kv.1) = some kv := by
  induction L with
  | nil => cases hmem
  | cons hd tl ih =>
    rcases List.mem_cons.1 hmem with h | h
    · subst h
      exact List.find?_cons_of_pos _ (by simp)
    · have hb : (hd.1 == kv.1) = false := by
        have hkv : kv.1 ∈ tl.map Prod.fst := List.mem_map_of_mem Prod.fst h
        have hnotin := (List.nodup_cons.1 hnd).1
        simp only [beq_eq_false_iff_ne, ne_eq]
        intro he
        exact hnotin (he ▸ hkv)
      rw [List.find?_cons]
      simp only [hb]
      exact ih (List.nodup_cons.1 hnd).2 h

/-- The keys of the emoji mapping are pairwise distinct. -/
lemma keys_nodup : (CHORE_EMOJI_MAPPING.map Prod.fst).Nodup := by decide

/-- With an active chore, `endGame` adds `points * multiplier` to `xp`. -/
lemma endGame_some_xp (now : Int) (s : AppState) (c : Chore)
    (h : s.currentChore = some c) :
    (endGame now s).xp = s.xp + s.points * (DIFFICULTY_SETTINGS c.difficulty).multiplier := by
  unfold endGame
  rw [h]
  by_cases hgt :
      (s.xp + s.points * (DIFFICULTY_SETTINGS c.difficulty).multiplier) / 1000 + 1 > s.level
  · simp [hgt]
  · simp [hgt]

/-- With an active chore, `endGame` raises the level to the recomputed one
exactly when it exceeds the old level. -/
lemma endGame_some_level (now : Int) (s : AppState) (c : Chore)
    (h : s.currentChore = some c) :
    (endGame now s).level =
      if (s.xp + s.points * (DIFFICULTY_SETTINGS c.difficulty).multiplier) / 1000 + 1 > s.level
      then (s.xp + s.points * (DIFFICULTY_SETTINGS c.difficulty).multiplier) / 1000 + 1
      else s.level := by
  unfold endGame
  rw [h]
  by_cases hgt :
      (s.xp + s.points * (DIFFICULTY_SETTINGS c.difficulty).multiplier) / 1000 + 1 > s.level
  · simp [hgt]
  · simp [hgt]

/-- The chore list after one `addChore` interaction. -/
lemma addChoreOp_chores (op : AddOp) (s : AppState) :
    (addChoreOp op s).chores =
      if strTrim op.name = "" then s.chores
      else s.chores ++ [{ id := op.now, name := op.name, difficulty := op.difficulty,
                          lastCompleted := none, streak := 0,
                          emoji := findEmojiForChore op.name }] := by
  unfold addChoreOp handleAddChore
  by_cases h : strTrim op.name = "" <;> simp [h]

/-! The claim theorems. -/

/-- C1: whenever the relation `level = xp / 1000 + 1` holds before an
`endGame` call (the `applyReward` of the specification), it holds after it:
`xp` never decreases, so the recomputed level is never below the old one and
the update-only-on-increase of `level` still preserves the derived formula. -/
theorem endGame_preserves_level (now : Int) (s : AppState)
    (h : s.level = s.xp / 1000 + 1) :
    (endGame now s).level = (endGame now s).xp / 1000 + 1 := by
  cases hc : s.currentChore with
  | none =>
    unfold endGame
    rw [hc]
    simpa using h
  | some c =>
    rw [endGame_some_xp now s c hc, endGame_some_level now s c hc]
    have hmono : s.xp / 1000 ≤
        (s.xp + s.points * (DIFFICULTY_SETTINGS c.difficulty).multiplier) / 1000 :=
      Nat.div_le_div_right (Nat.le_add_right _ _)
    split
    · rfl
    · omega

/-- Witness for C1 at a concrete level-up instance: a 990-xp level-1 player
earns 15 points and the formula still holds afterwards. -/
theorem endGame_preserves_level_witness :
    playingState.level = playingState.xp / 1000 + 1 ∧
    (endGame 99 playingState).level = (endGame 99 playingState).xp / 1000 + 1 :=
  ⟨by decide, endGame_preserves_level 99 playingState (by decide)⟩

/-- C2: the streak update on completion: never completed gives streak 1;
otherwise the whole-day difference `⌊(now − lastCompleted) / msPerDay⌋`
decides between incrementing (difference at most 1) and resetting to 1. -/
theorem updateStreak_rule (now : Int) (c : Chore) :
    (c.lastCompleted = none → updateStreak now c = 1) ∧
    (∀ last, c.lastCompleted = some last →
      (((now - last).fdiv msPerDay ≤ 1 → updateStreak now c = c.streak + 1) ∧
       (1 < (now - last).fdiv msPerDay → updateStreak now c = 1))) := by
  constructor
  · intro h
    unfold updateStreak
    rw [h]
  · intro last h
    unfold updateStreak
    rw [h]
    constructor
    · intro hle
      simp [hle]
    · intro hgt
      simp [not_le.2 hgt]

/-- Witness for C2: a never-completed chore gets streak 1; a streak-3 chore
completed again one day later gets streak 4, but two days later resets to 1. -/
theorem updateStreak_rule_witness :
    updateStreak 11 choreHard = 1 ∧
    updateStreak 86400000 choreDone = 4 ∧
    updateStreak 172800000 choreDone = 1 :=
  ⟨(updateStreak_rule 11 choreHard).1 rfl,
   by rw [((updateStreak_rule 86400000 choreDone).2 0 rfl).1 (by decide)]; rfl,
   ((updateStreak_rule 172800000 choreDone).2 0 rfl).2 (by decide)⟩

/-- C3: `handleAddChore` is a no-op when the typed name trims to empty, and
otherwise appends exactly one chore — with `streak = 0`,
`lastCompleted = none` and the emoji resolved by keyword lookup on the
name — to the end of the collection. -/
theorem handleAddChore_rule (now : Int) (s : AppState) :
    (strTrim s.newChoreName = "" → handleAddChore now s = s) ∧
    (strTrim s.newChoreName ≠ "" →
      (handleAddChore now s).chores =
        s.chores ++ [{ id := now, name := s.newChoreName,
                       difficulty := s.selectedDifficulty, lastCompleted := none,
                       streak := 0, emoji := findEmojiForChore s.newChoreName }] ∧
      (handleAddChore now s).chores.length = s.chores.length + 1) := by
  constructor
  · intro h
    unfold handleAddChore
    simp [h]
  · intro h
    unfold handleAddChore
    simp [h]

/-- Witness for C3: adding with a whitespace-only name changes nothing, and
adding `"dog walk"` grows the collection by one. -/
theorem handleAddChore_rule_witness :
    handleAddChore 1 { initialState with newChoreName := "   " } =
      { initialState with newChoreName := "   " } ∧
    (handleAddChore 2 addState).chores.length = addState.chores.length + 1 :=
  ⟨(handleAddChore_rule 1 _).1 (by decide),
   ((handleAddChore_rule 2 addState).2 (by decide)).2⟩

/-- C4: the reward added to `xp` by a session end is the session's raw
points times the difficulty multiplier, and the multipliers are
easy 1, medium 2, hard 3. -/
theorem endGame_reward (now : Int) (s : AppState) (c : Chore)
    (h : s.currentChore = some c) :
    (endGame now s).xp = s.xp + s.points * (DIFFICULTY_SETTINGS c.difficulty).multiplier ∧
    (DIFFICULTY_SETTINGS .easy).multiplier = 1 ∧
    (DIFFICULTY_SETTINGS .medium).multiplier = 2 ∧
    (DIFFICULTY_SETTINGS .hard).multiplier = 3 :=
  ⟨endGame_some_xp now s c h, rfl, rfl, rfl⟩

/-- Witness for C4: ending a hard session with 5 raw points on a fresh
profile yields exactly 15 xp. -/
theorem endGame_reward_witness : (endGame 0 freshHardSession).xp = 15 := by
  rw [(endGame_reward 0 freshHardSession choreHard rfl).1]
  rfl

/-- C5: the source's emoji resolution agrees, on every name, with the
specification's rule — the glyph of the first keyword, in
mapping-declaration order, occurring as a substring of the lowercased name,
else the default glyph; in particular `"Wash the dishes"` resolves to the
glyph mapped for `"wash"`, which differs from the one for `"dishes"`. -/
theorem findEmojiForChore_correct :
    (∀ name, findEmojiForChore name = findEmojiSpec name) ∧
    findEmojiForChore "Wash the dishes" = "🧽" ∧
    emojiFor "wash" = "🧽" ∧ emojiFor "dishes" = "🍽️" ∧ ("🧽" : String) ≠ "🍽️" := by
  refine ⟨?_, by decide, by decide, by decide, by decide⟩
  intro name
  simp only [findEmojiForChore, findEmojiSpec]
  rw [List.find?_map Prod.fst]
  cases hf : CHORE_EMOJI_MAPPING.find?
      ((fun keyword => strIncludes (strToLower name) keyword) ∘ Prod.fst) with
  | none =>
    rw [show (fun kv : String × String => strIncludes (strToLower name) kv.1)
        = ((fun keyword => strIncludes (strToLower name) keyword) ∘ Prod.fst) from rfl, hf]
    rfl
  | some kv =>
    rw [show (fun kv : String × String => strIncludes (strToLower name) kv.1)
        = ((fun keyword => strIncludes (strToLower name) keyword) ∘ Prod.fst) from rfl, hf]
    show emojiFor kv.1 = kv.2
    unfold emojiFor
    rw [find?_key_of_nodup CHORE_EMOJI_MAPPING keys_nodup kv (List.mem_of_find?_eq_some hf)]
    rfl

/-- C6 counterexample: when the stored data is corrupt (`JSON.parse`
throws), the load does NOT fall back to the defaults — the exception
escapes the effect, refuting the claim at this concrete input. -/
theorem loadEffect_corrupt_counterexample :
    loadEffect (some (.error ())) initialState ≠ .ok initialState :=
  fun h => Except.noConfusion h

/-- C6 (amended): an absent stored item keeps the in-memory defaults and a
valid stored state fully replaces them, but a corrupt stored item makes the
uncaught `JSON.parse` exception propagate out of the load effect — there is
no fail-soft reset in the code. -/
theorem loadEffect_rule (s : AppState) (d : SavedData) :
    loadEffect none s = .ok s ∧
    loadEffect (some (.ok d)) s =
      .ok { s with chores := d.chores, level := d.level, xp := d.xp } ∧
    loadEffect (some (.error ())) s = .error () :=
  ⟨rfl, rfl, rfl⟩

/-- C7 counterexample: two `addChore` interactions performed in the same
millisecond (`Date.now()` returned 7 both times) produce two chores with
the same id, refuting unconditional id uniqueness. -/
theorem runAdds_duplicate_ids :
    ¬ ((runAdds [⟨7, "feed cat", .easy⟩, ⟨7, "mop floor", .easy⟩]
        initialState).chores.map Chore.id).Nodup := by decide

/-- C7 (amended): chore ids are unique provided the `addChore` calls
happen at strictly increasing timestamps that exceed every id already in
the collection — i.e. at most one add per millisecond, which is what the
`Date.now()` id scheme relies on. -/
theorem runAdds_ids_nodup (ops : List AddOp) (s : AppState)
    (hnd : (s.chores.map Chore.id).Nodup)
    (hlt : ∀ i ∈ s.chores.map Chore.id, ∀ op ∈ ops, i < op.now)
    (hinc : ops.Pairwise (fun a b => a.now < b.now)) :
    ((runAdds ops s).chores.map Chore.id).Nodup := by
  induction ops generalizing s with
  | nil => exact hnd
  | cons op rest ih =>
    have hrun : runAdds (op :: rest) s = runAdds rest (addChoreOp op s) := rfl
    rw [hrun]
    have hpair := List.pairwise_cons.1 hinc
    apply ih
    · rw [addChoreOp_chores]
      split
      · exact hnd
      · rw [List.map_append, List.nodup_append]
        refine ⟨hnd, List.nodup_singleton _, ?_⟩
        intro i hi hj
        simp only [List.map_cons, List.map_nil, List.mem_singleton] at hj
        subst hj
        exact lt_irrefl _ (hlt _ hi op (List.mem_cons_self _ _))
    · intro i hi op' hop'
      rw [addChoreOp_chores] at hi
      rcases (by
        split at hi
        · exact Or.inl hi
        · rw [List.map_append] at hi
          exact (List.mem_append.1 hi).imp id (by simp)
        : i ∈ s.chores.map Chore.id ∨ i = op.now) with h | h
      · exact hlt i h op' (List.mem_cons_of_mem _ hop')
      · subst h
        exact hpair.1 op' hop'
    · exact hpair.2

/-- Witness for the amended C7: two adds at distinct instants 1 and 2 yield
distinct ids. -/
theorem runAdds_ids_nodup_witness :
    ((runAdds [⟨1, "feed cat", .easy⟩, ⟨2, "mop floor", .hard⟩]
        initialState).chores.map Chore.id).Nodup :=
  runAdds_ids_nodup _ initialState (by decide) (by decide) (by decide)

/-- C8: `scorePoint` increments the session's points by exactly 1 while
playing and leaves the whole state untouched otherwise (the button is not
mounted outside the running view). -/
theorem scorePoint_rule (s : AppState) :
    (s.isPlaying = true → scorePoint s = { s with points := s.points + 1 }) ∧
    (s.isPlaying = false → scorePoint s = s) := by
  constructor <;> intro h <;> unfold scorePoint <;> simp [h]

/-- Witness for C8: scoring in the idle initial state changes nothing;
scoring in a running 5-point session gives 6 points. -/
theorem scorePoint_rule_witness :
    scorePoint initialState = initialState ∧ (scorePoint playingState).points = 6 :=
  ⟨(scorePoint_rule initialState).2 rfl,
   by rw [(scorePoint_rule playingState).1 rfl]; rfl⟩

/-- C9: `startGame` records the chore as active, resets points to 0 and
sets the timer to the difficulty's start value — 45, 30 and 15 seconds for
easy, medium and hard. -/
theorem startGame_rule (c : Chore) (s : AppState) :
    startGame c s = { s with isPlaying := true, currentChore := some c,
                             timer := (DIFFICULTY_SETTINGS c.difficulty).time,
                             points := 0 } ∧
    (DIFFICULTY_SETTINGS .easy).time = 45 ∧
    (DIFFICULTY_SETTINGS .medium).time = 30 ∧
    (DIFFICULTY_SETTINGS .hard).time = 15 :=
  ⟨rfl, rfl, rfl, rfl⟩

/-- C10: every `endGame` with an active chore — the timer-expiry path and
the early-end path run the same function, and nothing conditions on the
point count — stamps the active chore's `lastCompleted` with the current
time and recomputes its streak; a zero-point session therefore still counts
as a completion. -/
theorem endGame_marks_completion (now : Int) (s : AppState) (c : Chore)
    (h : s.currentChore = some c) :
    ∀ ch ∈ (endGame now s).chores, ch.id = c.id →
      ch.lastCompleted = some now ∧ ch.streak = updateStreak now c := by
  have hch : (endGame now s).chores = s.chores.map
      (fun x => if x.id = c.id then
        { c with lastCompleted := some now, streak := updateStreak now c } else x) := by
    unfold endGame
    rw [h]
    by_cases hgt :
        (s.xp + s.points * (DIFFICULTY_SETTINGS c.difficulty).multiplier) / 1000 + 1 > s.level
    · simp [hgt]
    · simp [hgt]
  rw [hch]
  intro ch hmem hid
  rcases List.mem_map.1 hmem with ⟨x, hx, rfl⟩
  by_cases hxid : x.id = c.id
  · simp [hxid]
  · simp only [if_neg hxid] at hid ⊢
    exact absurd hid hxid

/-- Witness for C10: ending a zero-point session at instant 99 still stamps
the chore's `lastCompleted` and recomputes its streak. -/
theorem endGame_marks_completion_witness :
    zeroPointSession.points = 0 ∧
    updatedHard ∈ (endGame 99 zeroPointSession).chores ∧
    updatedHard.lastCompleted = some 99 ∧ updatedHard.streak = updateStreak 99 choreHard :=
  ⟨rfl, by decide,
   (endGame_marks_completion 99 zeroPointSession choreHard rfl updatedHard (by decide) rfl).1,
   (endGame_marks_completion 99 zeroPointSession choreHard rfl updatedHard (by decide) rfl).2⟩

end ChoreGame
